import Mathlib

/-!
Shallow embedding of `testset/validation.py`, the validation script for the
WMT2025 terminology shared task, together with proofs about its three
validation stages (filename checks, input/output consistency checks and
per-record schema checks).

Python values appearing in JSONL records are modelled by `PyVal`; Python's
structural equality `==` is modelled by `pyEq`; assertion failures and
uncaught exceptions are modelled by the `VError` type (descriptive
assertion messages keep their data as structured fields, uncaught
exceptions such as `TypeError`/`KeyError` are the `*Crash` constructors).
The filesystem is modelled as an association list from file path to the
per-line outcomes of `json.loads` (`some v` for a line parsing to `v`,
`none` for a line raising a decode error).
-/

namespace WMTValidation

/-- Model of a Python/JSON value as produced by `json.loads` (dicts keep
insertion order as an association list with string keys, the only kind of
key JSON can produce). -/
inductive PyVal where
  | str : String → PyVal
  | int : Int → PyVal
  | bool : Bool → PyVal
  | none : PyVal
  | list : List PyVal → PyVal
  | dict : List (String × PyVal) → PyVal
deriving Repr

/-- Keys of dict `b` are all present among keys of `a` (part of Python dict
equality). -/
def keysIncluded (b a : List (String × PyVal)) : Bool :=
  b.all (fun kv => (a.lookup kv.1).isSome)

mutual

/-- Python `==` on values: structural on scalars and lists, key-based
(insertion-order independent) on dicts. -/
def pyEq : PyVal → PyVal → Bool
  | PyVal.str a, PyVal.str b => a == b
  | PyVal.int a, PyVal.int b => a == b
  | PyVal.bool a, PyVal.bool b => a == b
  | PyVal.none, PyVal.none => true
  | PyVal.list a, PyVal.list b => pyEqList a b
  | PyVal.dict a, PyVal.dict b => pyEqDict a b && keysIncluded b a
  | _, _ => false

/-- Elementwise Python `==` on lists. -/
def pyEqList : List PyVal → List PyVal → Bool
  | [], [] => true
  | x :: xs, y :: ys => pyEq x y && pyEqList xs ys
  | _, _ => false

/-- Every entry of the first dict has a `pyEq`-equal value under the same
key in the second dict. -/
def pyEqDict : List (String × PyVal) → List (String × PyVal) → Bool
  | [], _ => true
  | (k, v) :: rest, b =>
      (match b.lookup k with
       | some w => pyEq v w
       | Option.none => false) && pyEqDict rest b

end

/-- List of strings has no repeated element. -/
def distinctKeys : List String → Bool
  | [] => true
  | k :: ks => (!ks.contains k) && distinctKeys ks

mutual

/-- Every dict nested in the value has pairwise distinct keys.  Values
produced by Python's `json.loads` always satisfy this (later duplicate
keys overwrite earlier ones). -/
def noDupKeys : PyVal → Bool
  | PyVal.list l => noDupKeysList l
  | PyVal.dict d => distinctKeys (d.map Prod.fst) && noDupKeysDict d
  | _ => true

/-- `noDupKeys` for every element of a list. -/
def noDupKeysList : List PyVal → Bool
  | [] => true
  | x :: xs => noDupKeys x && noDupKeysList xs

/-- `noDupKeys` for every value of a dict. -/
def noDupKeysDict : List (String × PyVal) → Bool
  | [] => true
  | (_, v) :: rest => noDupKeys v && noDupKeysDict rest

end

/-- Errors surfaced by the validation script.  Constructors up to
`wrongTermsValueDtype` model the script's own `assert` messages with their
data as structured fields; `typeCrash`/`keyCrash`/`attrCrash` model
uncaught Python exceptions (`TypeError`, `KeyError`, `AttributeError`)
that are not part of the script's descriptive error taxonomy. -/
inductive VError where
  | namingError (fname : String)
  | sysNameConflict (names : List String)
  | missingFile (fname : String)
  | formatError (filepath : String)
  | countMismatch (filepath : String) (expected got : Nat)
  | inconsistentData (filepath : String) (line : Nat)
  | wrongKeySet (filepath : String) (line : Nat) (expected got : List String)
  | wrongSrcDtype (filepath : String) (line : Nat) (got : String)
  | wrongTgtDtype (filepath : String) (line : Nat) (got : String)
  | wrongTermsDtype (filepath : String) (line : Nat) (got : String)
  | wrongTermsValueDtype (filepath : String) (line : Nat) (got : String)
  | typeCrash (msg : String)
  | keyCrash (key : String)
  | attrCrash (msg : String)
  | idxCrash (idx : Nat)
deriving Repr, DecidableEq

deriving instance DecidableEq for Except

/-- Whether the error is one of the script's own descriptive assertion
errors, as opposed to an uncaught exception. -/
def VError.isDescriptive : VError → Bool
  | VError.typeCrash _ => false
  | VError.keyCrash _ => false
  | VError.attrCrash _ => false
  | VError.idxCrash _ => false
  | _ => true

/-- Python's `str.split(sep)` for a one-character separator, on the
character list of a string. -/
def splitCharAux (sep : Char) : List Char → List Char → List String
  | [], acc => [String.mk acc.reverse]
  | c :: cs, acc =>
      if c = sep then String.mk acc.reverse :: splitCharAux sep cs []
      else splitCharAux sep cs (c :: acc)

/-- Python's `fname.split('.')`. -/
def splitDots (s : String) : List String :=
  splitCharAux '.' s.data []

/-- Python's `'.'.join(parts)`. -/
def joinDots : List String → String
  | [] => ""
  | [x] => x
  | x :: xs => x ++ "." ++ joinDots xs

/-- Python's `s.endswith(post)`. -/
def strEndsWith (s post : String) : Bool :=
  post.data.isSuffixOf s.data

/-- Python's negative indexing `l[-i]` on a list of strings.  All call
sites in the script guarantee `i ≤ l.length` (they run after the naming
check or on names the naming check accepted), so the `getD` default is
never produced there. -/
def negIdx (l : List String) (i : Nat) : String :=
  l.getD (l.length - i) ""

/-- Python's `path.split(os.path.sep)[-1]` (with `/` as separator). -/
def basename (f : String) : String :=
  (splitCharAux '/' f.data []).getLastD ""

/-- Python's rendering of an optional string inside an f-string: `None`
stands for the absent value. -/
def optStr : Option String → String
  | some s => s
  | Option.none => "None"

/-- Filesystem model: association list from file path to per-line
`json.loads` outcomes (`some v` when the line parses to `v`, `none` when
`json.loads` raises a decode error on it).  A path absent from the list
models a file that cannot be opened. -/
abbrev FSys : Type := List (String × List (Option PyVal))

/-- Evaluation of the list comprehension `[json.loads(l) for l in
f.readlines()]`: lines are parsed in order and the first decode error
aborts the whole comprehension. -/
def seqOptions : List (Option PyVal) → Option (List PyVal)
  | [] => some []
  | Option.none :: _ => Option.none
  | some v :: rest => (seqOptions rest).map (fun d => v :: d)

/-- Embedding of `file_basic_check(filepath, opener)` (validation.py lines
40-48).  The `filepath` argument is `Option String` because the script can
pass the `None` result of `find_file_by_prefix`; `open(None)` raises and
the bare `except` turns every failure (unopenable file or JSON decode
error) into the `False` sentinel. -/
def file_basic_check (fs : FSys) (filepath : Option String) (opener : Bool) : PyVal :=
  match filepath with
  | Option.none => PyVal.bool false
  | some p =>
    match fs.lookup p with
    | Option.none => PyVal.bool false
    | some lines =>
      match seqOptions lines with
      | Option.none => PyVal.bool false
      | some data => if opener then PyVal.list data else PyVal.bool true

/-- The three terminology modes accepted in filenames. -/
def modeTokens : List String := ["noterm", "random", "proper"]

/-- Embedding of `file_naming_check(fname, track)` (validation.py lines
51-61): token count, `jsonl` suffix and mode token are checked; for a
track other than 1 or 2 the Python function checks nothing and returns
`None`. -/
def file_naming_check (fname : String) (track : Nat) : Except VError Unit :=
  let fname_list := splitDots fname
  if track = 1 then
    if fname_list.length == 4 && negIdx fname_list 1 == "jsonl"
        && modeTokens.contains (negIdx fname_list 2) then Except.ok ()
    else Except.error (VError.namingError fname)
  else if track = 2 then
    if fname_list.length == 5 && negIdx fname_list 1 == "jsonl"
        && modeTokens.contains (negIdx fname_list 2) then Except.ok ()
    else Except.error (VError.namingError fname)
  else Except.ok ()

/-- The `for fname in fnames_list: file_naming_check(...)` loop of
`file_check` (validation.py lines 111-112): first failing name aborts. -/
def naming_check_all (fnames_list : List String) (track : Nat) : Except VError Unit :=
  match fnames_list with
  | [] => Except.ok ()
  | fname :: rest =>
    match file_naming_check fname track with
    | Except.error e => Except.error e
    | Except.ok _ => naming_check_all rest track

/-- The fixed allowed language pairs of track 1 (validation.py line 69). -/
def trackOnePairs : List String := ["enes", "enru", "ende"]

/-- The track-2 year→pair table `dict(zip(range(2015, 2025), ['enzh',
'zhen'] * 5))` (validation.py line 73), in insertion order. -/
def year2pair : List (Nat × String) :=
  List.zip (List.range' 2015 10) (List.replicate 5 ["enzh", "zhen"]).flatten

/-- The set comprehension `set([f.split('.')[-3] for f in fnames_list])`
(validation.py line 65), kept as a list since only membership is used. -/
def pairCandidates (fnames_list : List String) : List String :=
  fnames_list.map (fun f => negIdx (splitDots f) 3)

/-- The three expected filenames `{stem}.noterm.jsonl`,
`{stem}.random.jsonl`, `{stem}.proper.jsonl` built for one stem
(validation.py lines 77-78 and 82-83). -/
def modeNames (stem : String) : List String :=
  [stem ++ ".noterm.jsonl", stem ++ ".random.jsonl", stem ++ ".proper.jsonl"]

/-- Track-1 expected filenames: three mode files for every allowed
language pair present among the submitted pair tokens (validation.py
lines 67-78). -/
def expected_fnames_t1 (fnames_list : List String) (sysname : String) : List String :=
  (trackOnePairs.filter (fun lp => (pairCandidates fnames_list).contains lp)).flatMap
    (fun lp => modeNames (sysname ++ "." ++ lp))

/-- Track-2 expected filenames: three mode files for every entry of the
fixed year→pair table, independent of what was submitted (validation.py
lines 79-83). -/
def expected_fnames_t2 (sysname : String) : List String :=
  year2pair.flatMap (fun yp => modeNames (sysname ++ "." ++ toString yp.1 ++ "." ++ yp.2))

/-- Embedding of `file_year_pair_check(fnames_list, sysname, track)`
(validation.py lines 64-87): the first expected filename absent from the
submitted list raises the missing-file assertion. -/
def file_year_pair_check (fnames_list : List String) (sysname : String) (track : Nat) :
    Except VError Unit :=
  let expected_fnames :=
    if track = 1 then expected_fnames_t1 fnames_list sysname
    else if track = 2 then expected_fnames_t2 sysname
    else []
  match expected_fnames.find? (fun f => !(fnames_list.contains f)) with
  | some f => Except.error (VError.missingFile f)
  | Option.none => Except.ok ()

/-- Truthiness of the `file_basic_check` return value in `assert
file_basic_check(filepath)` (with `opener=False` only booleans are
returned). -/
def isTrueVal : PyVal → Bool
  | PyVal.bool true => true
  | _ => false

/-- The JSONL-format loop of `file_check` (validation.py lines 122-123):
first file failing `file_basic_check` raises the format assertion. -/
def format_check_all (fs : FSys) : List String → Except VError Unit
  | [] => Except.ok ()
  | filepath :: rest =>
    if isTrueVal (file_basic_check fs (some filepath) false) then format_check_all fs rest
    else Except.error (VError.formatError filepath)

/-- First dot-separated token of a filename, `f.split('.')[0]` — the
system name (validation.py line 113). -/
def firstTok (f : String) : String :=
  (splitDots f).headD ""

/-- The expression `[f.split(os.path.sep)[-1] for f in output_list if
f.endswith('.jsonl')]` shared by all three stages (validation.py lines
106/109, 150, 199). -/
def jsonlNames (output_list : List String) : List String :=
  (output_list.filter (fun f => strEndsWith f ".jsonl")).map basename

/-- Embedding of `file_check(output_list, track)` (validation.py lines
90-125): filter to `.jsonl`, per-name naming check, single-system-name
check (`set` modelled by `dedup`), completeness check, JSONL format
check. -/
def file_check (fs : FSys) (output_list : List String) (track : Nat) : Except VError Unit :=
  let jsonl_list := output_list.filter (fun f => strEndsWith f ".jsonl")
  let fnames_list := jsonl_list.map basename
  match naming_check_all fnames_list track with
  | Except.error e => Except.error e
  | Except.ok _ =>
    let sysnames := (fnames_list.map firstTok).dedup
    if sysnames.length = 1 then
      match file_year_pair_check fnames_list (sysnames.headD "") track with
      | Except.error e => Except.error e
      | Except.ok _ => format_check_all fs jsonl_list
    else Except.error (VError.sysNameConflict sysnames)

/-- Embedding of `find_file_by_prefix(filename, file_list, is_input)`
(validation.py lines 128-133): for inputs the leading system-name token
is stripped, then the first file ending with the remainder is returned;
`None` when no file matches. -/
def find_file_by_pref (filename : String) (file_list : List String) (stripFirst : Bool) :
    Option String :=
  let filename := if stripFirst then joinDots ((splitDots filename).drop 1) else filename
  file_list.find? (fun file => strEndsWith file filename)

/-- Python's `len(v)`: defined on sequences and mappings, a `TypeError`
on anything else (in particular on the `False` sentinel). -/
def pyLen : PyVal → Except VError Nat
  | PyVal.str s => Except.ok s.length
  | PyVal.list l => Except.ok l.length
  | PyVal.dict d => Except.ok d.length
  | _ => Except.error (VError.typeCrash "len")

/-- Python's `v[k]` for a string key: value lookup on a dict (`KeyError`
when absent), `TypeError` on any other value. -/
def pyGetItem (v : PyVal) (k : String) : Except VError PyVal :=
  match v with
  | PyVal.dict d =>
    match d.lookup k with
    | some w => Except.ok w
    | Option.none => Except.error (VError.keyCrash k)
  | _ => Except.error (VError.typeCrash "subscript")

/-- Python's `dp['terms'] if 'terms' in dp.keys() else {}` (validation.py
lines 168-169); `.keys()` on a non-dict raises `AttributeError`. -/
def termsOrEmpty (dp : PyVal) : Except VError PyVal :=
  match dp with
  | PyVal.dict d =>
    match d.lookup "terms" with
    | some v => Except.ok v
    | Option.none => Except.ok (PyVal.dict [])
  | _ => Except.error (VError.attrCrash "keys")

/-- One iteration of the per-line loop of `sample_check` (validation.py
lines 165-171): fetch the source field of both records, default the
`terms` field to an empty dict, and assert equality of both. -/
def datapoint_consistency (output_fname : String) (src : String) (idx : Nat)
    (inDp outDp : PyVal) : Except VError Unit :=
  match pyGetItem inDp src with
  | Except.error e => Except.error e
  | Except.ok input_src =>
    match pyGetItem outDp src with
    | Except.error e => Except.error e
    | Except.ok output_src =>
      match termsOrEmpty inDp with
      | Except.error e => Except.error e
      | Except.ok input_terms =>
        match termsOrEmpty outDp with
        | Except.error e => Except.error e
        | Except.ok output_terms =>
          if pyEq input_src output_src && pyEq input_terms output_terms then Except.ok ()
          else Except.error (VError.inconsistentData output_fname idx)

/-- The `for idx in range(len(output_data))` loop of `sample_check`
(validation.py lines 165-171); both data lists have equal length when it
runs, and the first failing index aborts. -/
def consistency_loop (output_fname : String) (src : String) (idx : Nat) :
    List PyVal → List PyVal → Except VError Unit
  | _, [] => Except.ok ()
  | [], _ :: _ => Except.error (VError.idxCrash idx)
  | inDp :: ins, outDp :: outs =>
    match datapoint_consistency output_fname src idx inDp outDp with
    | Except.error e => Except.error e
    | Except.ok _ => consistency_loop output_fname src (idx + 1) ins outs

/-- Underlying list of a `PyVal` list (the data lists of `sample_check`
are lists whenever `pyLen` succeeded on them). -/
def asList : PyVal → List PyVal
  | PyVal.list l => l
  | _ => []

/-- The body of `sample_check`'s per-filename loop (validation.py lines
152-171): locate the output and input paths, read both, assert equal line
counts (`len` of the input sentinel `False` raises `TypeError`), then run
the per-line consistency loop. -/
def sample_check_file (fs : FSys) (output_list input_list : List String) (fname : String) :
    Except VError Unit :=
  let langpair := negIdx (splitDots fname) 3
  let src := String.mk (langpair.data.take 2)
  let output_fname := find_file_by_pref fname output_list false
  let input_fname := find_file_by_pref fname input_list true
  let output_data := file_basic_check fs output_fname true
  let input_data := file_basic_check fs input_fname true
  match pyLen input_data with
  | Except.error e => Except.error e
  | Except.ok ilen =>
    match pyLen output_data with
    | Except.error e => Except.error e
    | Except.ok olen =>
      if ilen = olen then
        consistency_loop (optStr output_fname) src 0 (asList input_data) (asList output_data)
      else Except.error (VError.countMismatch (optStr output_fname) ilen olen)

/-- The per-filename loop of `sample_check`. -/
def sample_check_loop (fs : FSys) (output_list input_list : List String) :
    List String → Except VError Unit
  | [] => Except.ok ()
  | fname :: rest =>
    match sample_check_file fs output_list input_list fname with
    | Except.error e => Except.error e
    | Except.ok _ => sample_check_loop fs output_list input_list rest

/-- Embedding of `sample_check(output_list, input_list)` (validation.py
lines 136-173). -/
def sample_check (fs : FSys) (output_list input_list : List String) : Except VError Unit :=
  sample_check_loop fs output_list input_list (jsonlNames output_list)

/-- Python's `type(v)` rendered as the class name the script would print. -/
def pyTypeName : PyVal → String
  | PyVal.str _ => "str"
  | PyVal.int _ => "int"
  | PyVal.bool _ => "bool"
  | PyVal.none => "NoneType"
  | PyVal.list _ => "list"
  | PyVal.dict _ => "dict"

/-- Exact-type test `type(v) == str`. -/
def isStr : PyVal → Bool
  | PyVal.str _ => true
  | _ => false

/-- Exact-type test `type(v) == list`. -/
def isList : PyVal → Bool
  | PyVal.list _ => true
  | _ => false

/-- Embedding of `check_dict_format(terms, track)` (validation.py lines
176-183): walks the mapping in insertion order and reports the first
value whose exact type is not `track2dtype[track]` (`str` for track 1,
`list` for track 2 — the callers only pass track 1 or 2). -/
def check_dict_format (terms : List (String × PyVal)) (track : Nat) : Bool × Option String :=
  match terms with
  | [] => (true, Option.none)
  | (_, v) :: rest =>
    if (if track = 1 then isStr v else isList v) then check_dict_format rest track
    else (false, some (pyTypeName v))

/-- Python's `dp.keys()` in insertion order; `AttributeError` on a
non-dict. -/
def pyKeys (dp : PyVal) : Except VError (List String) :=
  match dp with
  | PyVal.dict d => Except.ok (d.map Prod.fst)
  | _ => Except.error (VError.attrCrash "keys")

/-- Python's `set(a) == set(b)` on string lists. -/
def sameSet (a b : List String) : Bool :=
  a.all (fun x => b.contains x) && b.all (fun x => a.contains x)

/-- The `key_list` of `datapoint_check` (validation.py line 212):
`[src, tgt, 'terms']` for modes `random`/`proper`, else `[src, tgt]`. -/
def expectedKeyList (src tgt mode : String) : List String :=
  if (["random", "proper"] : List String).contains mode then [src, tgt, "terms"]
  else [src, tgt]

/-- The value-type asserts of `datapoint_check` that follow the key-set
assert (validation.py lines 215-223): source and target values must be
`str`; for modes `random`/`proper` the `terms` value must be a `dict`
whose values satisfy `check_dict_format`. -/
def datapoint_value_check (output_fname : String) (track : Nat) (src tgt mode : String)
    (idx : Nat) (dp : PyVal) : Except VError Unit :=
  match pyGetItem dp src with
  | Except.error e => Except.error e
  | Except.ok sv =>
    if isStr sv then
      match pyGetItem dp tgt with
      | Except.error e => Except.error e
      | Except.ok tv =>
        if isStr tv then
          if (["random", "proper"] : List String).contains mode then
            match pyGetItem dp "terms" with
            | Except.error e => Except.error e
            | Except.ok terms =>
              match terms with
              | PyVal.dict td =>
                match check_dict_format td track with
                | (true, _) => Except.ok ()
                | (false, obs) =>
                  Except.error (VError.wrongTermsValueDtype output_fname idx (optStr obs))
              | other => Except.error (VError.wrongTermsDtype output_fname idx (pyTypeName other))
          else Except.ok ()
        else Except.error (VError.wrongTgtDtype output_fname idx (pyTypeName tv))
    else Except.error (VError.wrongSrcDtype output_fname idx (pyTypeName sv))

/-- One iteration of the per-line loop of `datapoint_check` (validation.py
lines 211-223): the key set of the record must equal the expected key set
exactly, then the value types are checked. -/
def datapoint_record_check (output_fname : String) (track : Nat) (src tgt mode : String)
    (idx : Nat) (dp : PyVal) : Except VError Unit :=
  let key_list := expectedKeyList src tgt mode
  match pyKeys dp with
  | Except.error e => Except.error e
  | Except.ok keys =>
    if sameSet key_list keys then datapoint_value_check output_fname track src tgt mode idx dp
    else Except.error (VError.wrongKeySet output_fname idx key_list keys)

/-- The `for idx, datapoint in enumerate(data)` loop of
`datapoint_check`. -/
def dprecord_loop (output_fname : String) (track : Nat) (src tgt mode : String) (idx : Nat) :
    List PyVal → Except VError Unit
  | [] => Except.ok ()
  | dp :: rest =>
    match datapoint_record_check output_fname track src tgt mode idx dp with
    | Except.error e => Except.error e
    | Except.ok _ => dprecord_loop output_fname track src tgt mode (idx + 1) rest

/-- The body of `datapoint_check`'s per-filename loop (validation.py lines
201-223): source/target codes and mode come from the filename tokens;
iterating over the `False` sentinel would raise `TypeError`. -/
def datapoint_check_file (fs : FSys) (output_list : List String) (track : Nat)
    (fname : String) : Except VError Unit :=
  let langpair := negIdx (splitDots fname) 3
  let src := String.mk (langpair.data.take 2)
  let tgt := String.mk (langpair.data.drop 2)
  let mode := negIdx (splitDots fname) 2
  let output_fname := find_file_by_pref fname output_list false
  match file_basic_check fs output_fname true with
  | PyVal.list data => dprecord_loop (optStr output_fname) track src tgt mode 0 data
  | _ => Except.error (VError.typeCrash "iter")

/-- The per-filename loop of `datapoint_check`. -/
def datapoint_check_loop (fs : FSys) (output_list : List String) (track : Nat) :
    List String → Except VError Unit
  | [] => Except.ok ()
  | fname :: rest =>
    match datapoint_check_file fs output_list track fname with
    | Except.error e => Except.error e
    | Except.ok _ => datapoint_check_loop fs output_list track rest

/-- Embedding of `datapoint_check(output_list, track)` (validation.py
lines 186-224). -/
def datapoint_check (fs : FSys) (output_list : List String) (track : Nat) :
    Except VError Unit :=
  datapoint_check_loop fs output_list track (jsonlNames output_list)

/-- The three-stage pipeline of `main` (validation.py lines 244-252):
filename checks, then input/output consistency, then per-record schema
checks, aborting at the first failure. -/
def validate_run (fs : FSys) (output_list input_list : List String) (track : Nat) :
    Except VError Unit :=
  match file_check fs output_list track with
  | Except.error e => Except.error e
  | Except.ok _ =>
    match sample_check fs output_list input_list with
    | Except.error e => Except.error e
    | Except.ok _ => datapoint_check fs output_list track

/-- The value is a Python dict. -/
def isDict : PyVal → Bool
  | PyVal.dict _ => true
  | _ => false

/-- The value is a dict carrying the given key. -/
def hasKey (dp : PyVal) (k : String) : Bool :=
  match dp with
  | PyVal.dict d => (d.lookup k).isSome
  | _ => false

/-- Value under a key of a dict (defaulting to `PyVal.none`; only used
in statements under a `hasKey` hypothesis). -/
def getVal (dp : PyVal) (k : String) : PyVal :=
  match dp with
  | PyVal.dict d => (d.lookup k).getD PyVal.none
  | _ => PyVal.none

/-- The `terms` value of a record, defaulting to the empty mapping — the
default the script applies in its consistency stage. -/
def termsVal (dp : PyVal) : PyVal :=
  match dp with
  | PyVal.dict d => (d.lookup "terms").getD (PyVal.dict [])
  | _ => PyVal.dict []

/-- An input record and an output record agree at one line: equal source
text and equal terms mapping (absent `terms` read as empty). -/
def recMatch (src : String) (inDp outDp : PyVal) : Bool :=
  pyEq (getVal inDp src) (getVal outDp src) && pyEq (termsVal inDp) (termsVal outDp)

/-- Zero-based index of the first record pair failing `recMatch`. -/
def firstMismatch (src : String) : List (PyVal × PyVal) → Option Nat
  | [] => Option.none
  | p :: rest =>
    if recMatch src p.1 p.2 then (firstMismatch src rest).map (fun j => j + 1)
    else some 0

/-- Well-formed output skeleton built from an input record: the input's
source text copied verbatim, a fresh target text, and (for the terms
modes) the input's terms mapping copied unchanged. -/
def mkOutput (src tgt : String) (tgtText : PyVal → String) (withTerms : Bool)
    (inDp : PyVal) : PyVal :=
  PyVal.dict ([(src, getVal inDp src), (tgt, PyVal.str (tgtText inDp))] ++
    (if withTerms then [("terms", termsVal inDp)] else []))

/-! ## Helper lemmas -/

theorem lookup_mem {d : List (String × PyVal)} {k : String} {v : PyVal}
    (h : d.lookup k = some v) : (k, v) ∈ d := by
  obtain ⟨l1, l2, rfl, -⟩ := List.lookup_eq_some_iff.1 h
  simp

theorem lookup_isSome_of_mem {d : List (String × PyVal)} {k : String} {v : PyVal}
    (h : (k, v) ∈ d) : (d.lookup k).isSome := by
  rw [List.lookup_isSome_iff]
  exact ⟨(k, v), h, by simp⟩

theorem noDupKeysDict_mem {d : List (String × PyVal)} (h : noDupKeysDict d = true) :
    ∀ kv ∈ d, noDupKeys kv.2 = true := by
  induction d with
  | nil => simp
  | cons hd tl ih =>
    obtain ⟨k, v⟩ := hd
    rw [noDupKeysDict] at h
    simp only [Bool.and_eq_true] at h
    intro kv hkv
    rcases List.mem_cons.1 hkv with rfl | htl
    · exact h.1
    · exact ih h.2 kv htl

theorem noDupKeysList_mem {l : List PyVal} (h : noDupKeysList l = true) :
    ∀ v ∈ l, noDupKeys v = true := by
  induction l with
  | nil => simp
  | cons hd tl ih =>
    rw [noDupKeysList] at h
    simp only [Bool.and_eq_true] at h
    intro v hv
    rcases List.mem_cons.1 hv with rfl | htl
    · exact h.1
    · exact ih h.2 v htl

theorem distinctKeys_lookup {d : List (String × PyVal)} {k : String} {v : PyVal}
    (hnd : distinctKeys (d.map Prod.fst) = true) (hm : (k, v) ∈ d) :
    d.lookup k = some v := by
  induction d with
  | nil => simp at hm
  | cons hd tl ih =>
    obtain ⟨k0, v0⟩ := hd
    simp only [List.map_cons, distinctKeys, Bool.and_eq_true] at hnd
    rcases hnd with ⟨hnotin, hnd2⟩
    rcases List.mem_cons.1 hm with heq | htl
    · obtain ⟨rfl, rfl⟩ := Prod.mk.injEq .. ▸ heq
      simp [List.lookup_cons]
    · have hmem : k ∈ tl.map Prod.fst := List.mem_map.2 ⟨(k, v), htl, rfl⟩
      have hne : (k == k0) = false := by
        rw [beq_eq_false_iff_ne]
        rintro rfl
        simp only [Bool.not_eq_true', List.contains, List.elem_eq_mem,
          decide_eq_false_iff_not] at hnotin
        exact hnotin hmem
      rw [List.lookup_cons, hne]
      exact ih hnd2 htl

theorem keysIncluded_of_forall {b a : List (String × PyVal)}
    (h : ∀ kv ∈ b, (a.lookup kv.1).isSome) : keysIncluded b a = true := by
  rw [keysIncluded, List.all_eq_true]
  intro kv hkv
  exact h kv hkv

theorem pyEqDict_of_forall {rest b : List (String × PyVal)}
    (h : ∀ kv ∈ rest, ∃ w, b.lookup kv.1 = some w ∧ pyEq kv.2 w = true) :
    pyEqDict rest b = true := by
  induction rest with
  | nil => rw [pyEqDict]
  | cons hd tl ih =>
    obtain ⟨k, v⟩ := hd
    rw [pyEqDict]
    obtain ⟨w, hw, heq⟩ := h (k, v) (List.mem_cons_self _ _)
    rw [hw]
    show (pyEq v w && pyEqDict tl b) = true
    rw [show pyEq v w = true from heq, Bool.true_and]
    exact ih (fun kv hkv => h kv (List.mem_cons_of_mem _ hkv))

mutual

theorem pyEq_refl : ∀ (v : PyVal), noDupKeys v = true → pyEq v v = true
  | PyVal.str s, _ => by simp [pyEq]
  | PyVal.int n, _ => by simp [pyEq]
  | PyVal.bool b, _ => by simp [pyEq]
  | PyVal.none, _ => by simp [pyEq]
  | PyVal.list l, h => by
    rw [pyEq]
    exact pyEqList_refl l (by rw [noDupKeys] at h; exact h)
  | PyVal.dict d, h => by
    rw [pyEq]
    rw [noDupKeys, Bool.and_eq_true] at h
    have hvals := pyEqDict_vals_refl d h.2
    have h1 : pyEqDict d d = true :=
      pyEqDict_of_forall (fun kv hkv =>
        ⟨kv.2, distinctKeys_lookup h.1 hkv, hvals kv hkv⟩)
    have h2 : keysIncluded d d = true :=
      keysIncluded_of_forall (fun kv hkv => lookup_isSome_of_mem hkv)
    rw [h1, h2]
    rfl

theorem pyEqList_refl : ∀ (l : List PyVal), noDupKeysList l = true → pyEqList l l = true
  | [], _ => by rw [pyEqList]
  | x :: xs, h => by
    rw [pyEqList]
    rw [noDupKeysList, Bool.and_eq_true] at h
    rw [pyEq_refl x h.1, pyEqList_refl xs h.2]
    rfl

theorem pyEqDict_vals_refl :
    ∀ (d : List (String × PyVal)), noDupKeysDict d = true →
      ∀ kv ∈ d, pyEq kv.2 kv.2 = true
  | [], _ => by simp
  | (k, v) :: rest, h => by
    rw [noDupKeysDict, Bool.and_eq_true] at h
    intro kv hkv
    rcases List.mem_cons.1 hkv with rfl | htl
    · exact pyEq_refl v h.1
    · exact pyEqDict_vals_refl rest h.2 kv htl

end

theorem seqOptions_eq_some {lines : List (Option PyVal)} {data : List PyVal}
    (h : seqOptions lines = some data) : lines = data.map some := by
  induction lines generalizing data with
  | nil =>
    rw [seqOptions] at h
    cases h
    rfl
  | cons hd tl ih =>
    cases hd with
    | none => rw [seqOptions] at h; cases h
    | some v =>
      rw [seqOptions] at h
      rcases Option.map_eq_some'.1 h with ⟨d2, hd2, rfl⟩
      rw [List.map_cons, ← ih hd2]

theorem seqOptions_eq_none {lines : List (Option PyVal)}
    (h : Option.none ∈ lines) : seqOptions lines = Option.none := by
  induction lines with
  | nil => simp at h
  | cons hd tl ih =>
    rcases List.mem_cons.1 h with rfl | htl
    · rw [seqOptions]
    · cases hd with
      | none => rw [seqOptions]
      | some v => rw [seqOptions, ih htl, Option.map_none']

theorem datapoint_consistency_eq (ofname src : String) (idx : Nat) (inDp outDp : PyVal)
    (h1 : isDict inDp = true) (h2 : hasKey inDp src = true)
    (h3 : isDict outDp = true) (h4 : hasKey outDp src = true) :
    datapoint_consistency ofname src idx inDp outDp =
      (if recMatch src inDp outDp then Except.ok ()
       else Except.error (VError.inconsistentData ofname idx)) := by
  cases inDp with
  | dict d =>
    cases outDp with
    | dict e =>
      rw [hasKey] at h2 h4
      obtain ⟨v, hv⟩ := Option.isSome_iff_exists.1 h2
      obtain ⟨w, hw⟩ := Option.isSome_iff_exists.1 h4
      rw [datapoint_consistency, pyGetItem, hv, pyGetItem, hw]
      rw [termsOrEmpty, termsOrEmpty]
      rw [recMatch, getVal, getVal, termsVal, termsVal, hv, hw]
      cases hterm1 : d.lookup "terms" <;> cases hterm2 : e.lookup "terms" <;> rfl
    | str s => simp [isDict] at h3
    | int n => simp [isDict] at h3
    | bool b => simp [isDict] at h3
    | none => simp [isDict] at h3
    | list l => simp [isDict] at h3
  | str s => simp [isDict] at h1
  | int n => simp [isDict] at h1
  | bool b => simp [isDict] at h1
  | none => simp [isDict] at h1
  | list l => simp [isDict] at h1

theorem consistency_loop_eq (ofname src : String) (k : Nat) (ins outs : List PyVal)
    (hlen : ins.length = outs.length)
    (hin : ∀ dp ∈ ins, isDict dp = true ∧ hasKey dp src = true)
    (hout : ∀ dp ∈ outs, isDict dp = true ∧ hasKey dp src = true) :
    consistency_loop ofname src k ins outs =
      (match firstMismatch src (ins.zip outs) with
       | some j => Except.error (VError.inconsistentData ofname (k + j))
       | Option.none => Except.ok ()) := by
  induction ins generalizing outs k with
  | nil =>
    cases outs with
    | nil => rfl
    | cons o os => simp at hlen
  | cons i is ih =>
    cases outs with
    | nil => simp at hlen
    | cons o os =>
      obtain ⟨hi1, hi2⟩ := hin i (List.mem_cons_self _ _)
      obtain ⟨ho1, ho2⟩ := hout o (List.mem_cons_self _ _)
      rw [consistency_loop, datapoint_consistency_eq ofname src k i o hi1 hi2 ho1 ho2]
      rw [List.zip_cons_cons, firstMismatch]
      by_cases hm : recMatch src i o
      · rw [if_pos hm, if_pos hm]
        rw [ih (k + 1) os (by simpa using hlen)
          (fun dp hdp => hin dp (List.mem_cons_of_mem _ hdp))
          (fun dp hdp => hout dp (List.mem_cons_of_mem _ hdp))]
        cases hfm : firstMismatch src (is.zip os) with
        | none => rfl
        | some j =>
          simp only [Option.map_some']
          congr 2
          omega
      · rw [if_neg hm, if_neg hm]
        rfl

theorem firstMismatch_eq_none_iff (src : String) (pairs : List (PyVal × PyVal)) :
    firstMismatch src pairs = Option.none ↔ ∀ p ∈ pairs, recMatch src p.1 p.2 = true := by
  induction pairs with
  | nil => simp [firstMismatch]
  | cons p rest ih =>
    rw [firstMismatch]
    by_cases hm : recMatch src p.1 p.2
    · rw [if_pos hm]
      simp only [Option.map_eq_none', List.mem_cons]
      constructor
      · intro h q hq
        rcases hq with rfl | hq
        · exact hm
        · exact ih.1 h q hq
      · intro h
        exact ih.2 (fun q hq => h q (Or.inr hq))
    · rw [if_neg hm]
      simp only [List.mem_cons]
      constructor
      · intro h; cases h
      · intro h
        exact absurd (h p (Or.inl rfl)) hm

theorem firstMismatch_spec (src : String) (pairs : List (PyVal × PyVal)) (j : Nat)
    (h : firstMismatch src pairs = some j) :
    j < pairs.length ∧
      recMatch src (pairs.getD j (PyVal.none, PyVal.none)).1
        (pairs.getD j (PyVal.none, PyVal.none)).2 = false ∧
      ∀ i < j, recMatch src (pairs.getD i (PyVal.none, PyVal.none)).1
        (pairs.getD i (PyVal.none, PyVal.none)).2 = true := by
  induction pairs generalizing j with
  | nil => rw [firstMismatch] at h; cases h
  | cons p rest ih =>
    rw [firstMismatch] at h
    by_cases hm : recMatch src p.1 p.2
    · rw [if_pos hm] at h
      rcases Option.map_eq_some'.1 h with ⟨j2, hj2, rfl⟩
      obtain ⟨hlt, hbad, hgood⟩ := ih j2 hj2
      refine ⟨by simpa using Nat.succ_lt_succ hlt, by simpa using hbad, ?_⟩
      intro i hi
      cases i with
      | zero => simpa using hm
      | succ i2 =>
        have : i2 < j2 := Nat.lt_of_succ_lt_succ hi
        simpa using hgood i2 this
    · rw [if_neg hm] at h
      cases h
      refine ⟨by simp, by simpa using Bool.not_eq_true _ ▸ hm, ?_⟩
      intro i hi
      cases hi

theorem pyGetItem_error_shape {v : PyVal} {k : String} {e : VError}
    (h : pyGetItem v k = Except.error e) :
    e = VError.keyCrash k ∨ e = VError.typeCrash "subscript" := by
  cases v with
  | dict d =>
    rw [pyGetItem] at h
    cases hl : d.lookup k with
    | some w => rw [hl] at h; cases h
    | none => rw [hl] at h; cases h; exact Or.inl rfl
  | str s => cases h; exact Or.inr rfl
  | int n => cases h; exact Or.inr rfl
  | bool b => cases h; exact Or.inr rfl
  | none => cases h; exact Or.inr rfl
  | list l => cases h; exact Or.inr rfl

theorem termsOrEmpty_error_shape {v : PyVal} {e : VError}
    (h : termsOrEmpty v = Except.error e) : e = VError.attrCrash "keys" := by
  cases v with
  | dict d =>
    rw [termsOrEmpty] at h
    cases hl : d.lookup "terms" with
    | some w => rw [hl] at h; cases h
    | none => rw [hl] at h; cases h
  | str s => cases h; rfl
  | int n => cases h; rfl
  | bool b => cases h; rfl
  | none => cases h; rfl
  | list l => cases h; rfl

theorem datapoint_consistency_error_shape {ofname src : String} {idx : Nat}
    {inDp outDp : PyVal} {e : VError}
    (h : datapoint_consistency ofname src idx inDp outDp = Except.error e) :
    (∃ k, e = VError.keyCrash k) ∨ (∃ m, e = VError.typeCrash m) ∨
      (∃ m, e = VError.attrCrash m) ∨ e = VError.inconsistentData ofname idx := by
  rw [datapoint_consistency] at h
  cases hx1 : pyGetItem inDp src with
  | error e1 =>
    rw [hx1] at h
    cases h
    rcases pyGetItem_error_shape hx1 with h1 | h1
    · exact Or.inl ⟨_, h1⟩
    · exact Or.inr (Or.inl ⟨_, h1⟩)
  | ok v1 =>
    rw [hx1] at h
    cases hx2 : pyGetItem outDp src with
    | error e2 =>
      rw [hx2] at h
      cases h
      rcases pyGetItem_error_shape hx2 with h1 | h1
      · exact Or.inl ⟨_, h1⟩
      · exact Or.inr (Or.inl ⟨_, h1⟩)
    | ok v2 =>
      rw [hx2] at h
      cases hx3 : termsOrEmpty inDp with
      | error e3 =>
        rw [hx3] at h
        cases h
        exact Or.inr (Or.inr (Or.inl ⟨_, termsOrEmpty_error_shape hx3⟩))
      | ok t1 =>
        rw [hx3] at h
        cases hx4 : termsOrEmpty outDp with
        | error e4 =>
          rw [hx4] at h
          cases h
          exact Or.inr (Or.inr (Or.inl ⟨_, termsOrEmpty_error_shape hx4⟩))
        | ok t2 =>
          rw [hx4] at h
          dsimp only at h
          by_cases hm : (pyEq v1 v2 && pyEq t1 t2) = true
          · rw [if_pos hm] at h; cases h
          · rw [if_neg hm] at h
            cases h
            exact Or.inr (Or.inr (Or.inr rfl))

theorem consistency_loop_no_countMismatch (ofname src : String) (k : Nat)
    (ins outs : List PyVal) (f : String) (a b : Nat) :
    consistency_loop ofname src k ins outs ≠
      Except.error (VError.countMismatch f a b) := by
  induction ins generalizing outs k with
  | nil =>
    cases outs with
    | nil => rw [consistency_loop]; intro h; cases h
    | cons o os => rw [consistency_loop]; intro h; cases h
  | cons i is ih =>
    cases outs with
    | nil => rw [consistency_loop]; intro h; cases h
    | cons o os =>
      rw [consistency_loop]
      intro h
      cases hx : datapoint_consistency ofname src k i o with
      | error e =>
        rw [hx] at h
        have he : e = VError.countMismatch f a b := by cases h; rfl
        subst he
        rcases datapoint_consistency_error_shape hx with ⟨k2, hk⟩ | ⟨m, hk⟩ | ⟨m, hk⟩ | hk <;>
          cases hk
      | ok u =>
        rw [hx] at h
        exact ih (k + 1) os h

theorem naming_check_all_ok {fnames_list : List String} {track : Nat}
    (h : ∀ f ∈ fnames_list, file_naming_check f track = Except.ok ()) :
    naming_check_all fnames_list track = Except.ok () := by
  induction fnames_list with
  | nil => rfl
  | cons f rest ih =>
    rw [naming_check_all, h f (List.mem_cons_self _ _)]
    exact ih (fun g hg => h g (List.mem_cons_of_mem _ hg))

theorem format_check_all_ok {fs : FSys} {paths : List String}
    (h : ∀ p ∈ paths, isTrueVal (file_basic_check fs (some p) false) = true) :
    format_check_all fs paths = Except.ok () := by
  induction paths with
  | nil => rfl
  | cons p rest ih =>
    rw [format_check_all, if_pos (h p (List.mem_cons_self _ _))]
    exact ih (fun q hq => h q (List.mem_cons_of_mem _ hq))

theorem sameSet_iff (a b : List String) :
    sameSet a b = true ↔ ∀ x, (x ∈ a ↔ x ∈ b) := by
  simp only [sameSet, Bool.and_eq_true, List.all_eq_true, List.contains, List.elem_eq_mem,
    decide_eq_true_eq]
  constructor
  · rintro ⟨h1, h2⟩ x
    exact ⟨fun hx => h1 x hx, fun hx => h2 x hx⟩
  · intro h
    exact ⟨fun x hx => (h x).1 hx, fun x hx => (h x).2 hx⟩

theorem datapoint_value_check_no_wrongKeySet (ofname : String) (track : Nat)
    (src tgt mode : String) (idx : Nat) (dp : PyVal) (f : String) (i : Nat)
    (a b : List String) :
    datapoint_value_check ofname track src tgt mode idx dp ≠
      Except.error (VError.wrongKeySet f i a b) := by
  intro h
  rw [datapoint_value_check] at h
  cases hx1 : pyGetItem dp src with
  | error e1 =>
    rw [hx1] at h
    have he : e1 = VError.wrongKeySet f i a b := by cases h; rfl
    rcases pyGetItem_error_shape hx1 with h1 | h1 <;> rw [he] at h1 <;> cases h1
  | ok sv =>
    rw [hx1] at h
    dsimp only at h
    by_cases hs : isStr sv = true
    · rw [if_pos hs] at h
      cases hx2 : pyGetItem dp tgt with
      | error e2 =>
        rw [hx2] at h
        have he : e2 = VError.wrongKeySet f i a b := by cases h; rfl
        rcases pyGetItem_error_shape hx2 with h1 | h1 <;> rw [he] at h1 <;> cases h1
      | ok tv =>
        rw [hx2] at h
        dsimp only at h
        by_cases ht : isStr tv = true
        · rw [if_pos ht] at h
          by_cases hmode : (["random", "proper"] : List String).contains mode = true
          · rw [if_pos hmode] at h
            cases hx3 : pyGetItem dp "terms" with
            | error e3 =>
              rw [hx3] at h
              have he : e3 = VError.wrongKeySet f i a b := by cases h; rfl
              rcases pyGetItem_error_shape hx3 with h1 | h1 <;> rw [he] at h1 <;> cases h1
            | ok terms =>
              rw [hx3] at h
              dsimp only at h
              cases terms with
              | dict td =>
                dsimp only at h
                cases hcd : check_dict_format td track with
                | mk ok2 obs2 =>
                  rw [hcd] at h
                  cases ok2 with
                  | true => cases h
                  | false => cases h
              | str s => cases h
              | int n => cases h
              | bool b2 => cases h
              | none => cases h
              | list l => cases h
          · rw [if_neg hmode] at h; cases h
        · rw [if_neg ht] at h; cases h
    · rw [if_neg hs] at h; cases h

theorem noDupKeys_getVal {dp : PyVal} (k : String) (h : noDupKeys dp = true) :
    noDupKeys (getVal dp k) = true := by
  cases dp with
  | dict d =>
    rw [getVal]
    cases hl : d.lookup k with
    | some v =>
      rw [noDupKeys, Bool.and_eq_true] at h
      exact noDupKeysDict_mem h.2 (k, v) (lookup_mem hl)
    | none => rfl
  | str s => rfl
  | int n => rfl
  | bool b => rfl
  | none => rfl
  | list l => rfl

theorem noDupKeys_termsVal {dp : PyVal} (h : noDupKeys dp = true) :
    noDupKeys (termsVal dp) = true := by
  cases dp with
  | dict d =>
    rw [termsVal]
    cases hl : d.lookup "terms" with
    | some v =>
      rw [noDupKeys, Bool.and_eq_true] at h
      exact noDupKeysDict_mem h.2 ("terms", v) (lookup_mem hl)
    | none => rfl
  | str s => rfl
  | int n => rfl
  | bool b => rfl
  | none => rfl
  | list l => rfl

/-! ## Claim theorems -/

/-- C8: the Record Reader (`file_basic_check` with `opener=True`) parses
each line of the file independently and, when every line parses, returns
the list of parsed records preserving line order (the line list is exactly
the record list lifted by `some`); as soon as any line fails to decode it
returns the boolean sentinel `False`, never a partial list, and no
exception escapes to the caller. -/
theorem c8_record_reader (fs : FSys) (p : String) (lines : List (Option PyVal))
    (h : List.lookup p fs = some lines) :
    (∀ data, seqOptions lines = some data →
        lines = data.map some ∧ file_basic_check fs (some p) true = PyVal.list data) ∧
    (Option.none ∈ lines →
        seqOptions lines = Option.none ∧
          file_basic_check fs (some p) true = PyVal.bool false) := by
  constructor
  · intro data hdata
    refine ⟨seqOptions_eq_some hdata, ?_⟩
    simp [file_basic_check, h, hdata]
  · intro hnone
    have hn := seqOptions_eq_none hnone
    refine ⟨hn, ?_⟩
    simp [file_basic_check, h, hn]

theorem c8_record_reader_witness :
    (([some (PyVal.str "a"), some (PyVal.int 2)] : List (Option PyVal)) =
        ([PyVal.str "a", PyVal.int 2] : List PyVal).map some ∧
      file_basic_check [("f.jsonl", [some (PyVal.str "a"), some (PyVal.int 2)])]
        (some "f.jsonl") true = PyVal.list [PyVal.str "a", PyVal.int 2]) ∧
    (seqOptions [some (PyVal.str "a"), Option.none] = Option.none ∧
      file_basic_check [("g.jsonl", [some (PyVal.str "a"), Option.none])]
        (some "g.jsonl") true = PyVal.bool false) :=
  ⟨(c8_record_reader [("f.jsonl", [some (PyVal.str "a"), some (PyVal.int 2)])] "f.jsonl"
      [some (PyVal.str "a"), some (PyVal.int 2)] rfl).1
      [PyVal.str "a", PyVal.int 2] rfl,
   (c8_record_reader [("g.jsonl", [some (PyVal.str "a"), Option.none])] "g.jsonl"
      [some (PyVal.str "a"), Option.none] rfl).2 (by simp)⟩

/-- C3: when no input filename ends with the output filename stripped of
its leading system token, `find_file_by_prefix` yields `None`,
`file_basic_check(None, opener=True)` yields the boolean `False`, and the
consistency stage then evaluates `len(False)`, an uncaught `TypeError`
that is outside the script's descriptive error taxonomy. -/
theorem c3_missing_input_crashes (fs : FSys) (output_list input_list : List String)
    (fname : String) (_htok : 3 ≤ (splitDots fname).length)
    (h : find_file_by_pref fname input_list true = Option.none) :
    file_basic_check fs (find_file_by_pref fname input_list true) true = PyVal.bool false ∧
    sample_check_file fs output_list input_list fname =
      Except.error (VError.typeCrash "len") ∧
    VError.isDescriptive (VError.typeCrash "len") = false := by
  refine ⟨by rw [h]; rfl, ?_, rfl⟩
  simp only [sample_check_file, h]
  rfl

theorem c3_missing_input_crashes_witness :
    file_basic_check [("sys.enes.random.jsonl", [some (PyVal.dict [("en", PyVal.str "hi")])])]
        (find_file_by_pref "sys.enes.random.jsonl" [] true) true = PyVal.bool false ∧
    sample_check_file [("sys.enes.random.jsonl", [some (PyVal.dict [("en", PyVal.str "hi")])])]
        ["sys.enes.random.jsonl"] [] "sys.enes.random.jsonl" =
      Except.error (VError.typeCrash "len") ∧
    VError.isDescriptive (VError.typeCrash "len") = false :=
  c3_missing_input_crashes
    [("sys.enes.random.jsonl", [some (PyVal.dict [("en", PyVal.str "hi")])])]
    ["sys.enes.random.jsonl"] [] "sys.enes.random.jsonl" (by decide) (by decide)

/-- C4: for paired input/output record lists of equal length (all records
dicts carrying the source key, as after the schema of the inputs), the
per-line consistency loop succeeds exactly when every index agrees on the
source text and on the `terms` mapping (absent `terms` read as the empty
mapping), and on the first disagreeing index `j` it stops with the error
naming the output file and the zero-based index `j`. -/
theorem c4_consistency_per_index (ofname src : String) (ins outs : List PyVal)
    (hlen : ins.length = outs.length)
    (hin : ∀ dp ∈ ins, isDict dp = true ∧ hasKey dp src = true)
    (hout : ∀ dp ∈ outs, isDict dp = true ∧ hasKey dp src = true) :
    (consistency_loop ofname src 0 ins outs = Except.ok () ↔
      ∀ p ∈ ins.zip outs, recMatch src p.1 p.2 = true) ∧
    (∀ j, firstMismatch src (ins.zip outs) = some j →
      consistency_loop ofname src 0 ins outs =
        Except.error (VError.inconsistentData ofname j) ∧
      recMatch src ((ins.zip outs).getD j (PyVal.none, PyVal.none)).1
        ((ins.zip outs).getD j (PyVal.none, PyVal.none)).2 = false ∧
      ∀ i < j, recMatch src ((ins.zip outs).getD i (PyVal.none, PyVal.none)).1
        ((ins.zip outs).getD i (PyVal.none, PyVal.none)).2 = true) := by
  have hkey := consistency_loop_eq ofname src 0 ins outs hlen hin hout
  constructor
  · constructor
    · intro hok
      rw [hkey] at hok
      cases hfm : firstMismatch src (ins.zip outs) with
      | none => exact (firstMismatch_eq_none_iff src _).1 hfm
      | some j => rw [hfm] at hok; cases hok
    · intro hall
      rw [hkey, (firstMismatch_eq_none_iff src _).2 hall]
  · intro j hj
    obtain ⟨hlt, hbad, hgood⟩ := firstMismatch_spec src _ j hj
    refine ⟨?_, hbad, hgood⟩
    rw [hkey, hj]
    simp

theorem c4_consistency_per_index_witness :
    consistency_loop "out/sys.enes.random.jsonl" "en" 0
        [PyVal.dict [("en", PyVal.str "a")], PyVal.dict [("en", PyVal.str "b")]]
        [PyVal.dict [("en", PyVal.str "a"), ("es", PyVal.str "x")],
         PyVal.dict [("en", PyVal.str "c"), ("es", PyVal.str "y")]] =
      Except.error (VError.inconsistentData "out/sys.enes.random.jsonl" 1) :=
  ((c4_consistency_per_index "out/sys.enes.random.jsonl" "en"
      [PyVal.dict [("en", PyVal.str "a")], PyVal.dict [("en", PyVal.str "b")]]
      [PyVal.dict [("en", PyVal.str "a"), ("es", PyVal.str "x")],
       PyVal.dict [("en", PyVal.str "c"), ("es", PyVal.str "y")]]
      (by decide) (by decide) (by decide)).2 1 (by decide)).1

/-- C5: when the paired files both read back as record lists, a
difference in record counts stops the consistency stage with the
count-mismatch error carrying the input file's count as `expected` and
the output file's count as `got`; when the counts agree the stage can
never produce a count-mismatch error. -/
theorem c5_count_mismatch (fs : FSys) (output_list input_list : List String)
    (fname : String) (idata odata : List PyVal)
    (hi : file_basic_check fs (find_file_by_pref fname input_list true) true =
      PyVal.list idata)
    (ho : file_basic_check fs (find_file_by_pref fname output_list false) true =
      PyVal.list odata) :
    (idata.length ≠ odata.length →
      sample_check_file fs output_list input_list fname =
        Except.error (VError.countMismatch
          (optStr (find_file_by_pref fname output_list false))
          idata.length odata.length)) ∧
    (idata.length = odata.length →
      ∀ f a b, sample_check_file fs output_list input_list fname ≠
        Except.error (VError.countMismatch f a b)) := by
  constructor
  · intro hne
    simp only [sample_check_file, hi, ho, pyLen]
    rw [if_neg hne]
  · intro heq f a b
    simp only [sample_check_file, hi, ho, pyLen]
    rw [if_pos heq]
    exact consistency_loop_no_countMismatch _ _ _ _ _ _ _ _

theorem c5_count_mismatch_witness :
    sample_check_file
        [("sys.2016.zhen.random.jsonl",
            [some (PyVal.dict [("zh", PyVal.str "a")]), some (PyVal.dict [("zh", PyVal.str "b")]),
             some (PyVal.dict [("zh", PyVal.str "c")])]),
         ("2016.zhen.random.jsonl",
            [some (PyVal.dict [("zh", PyVal.str "a")]), some (PyVal.dict [("zh", PyVal.str "b")])])]
        ["sys.2016.zhen.random.jsonl"] ["2016.zhen.random.jsonl"] "sys.2016.zhen.random.jsonl" =
      Except.error (VError.countMismatch "sys.2016.zhen.random.jsonl" 2 3) :=
  (c5_count_mismatch
      [("sys.2016.zhen.random.jsonl",
          [some (PyVal.dict [("zh", PyVal.str "a")]), some (PyVal.dict [("zh", PyVal.str "b")]),
           some (PyVal.dict [("zh", PyVal.str "c")])]),
       ("2016.zhen.random.jsonl",
          [some (PyVal.dict [("zh", PyVal.str "a")]), some (PyVal.dict [("zh", PyVal.str "b")])])]
      ["sys.2016.zhen.random.jsonl"] ["2016.zhen.random.jsonl"] "sys.2016.zhen.random.jsonl"
      [PyVal.dict [("zh", PyVal.str "a")], PyVal.dict [("zh", PyVal.str "b")]]
      [PyVal.dict [("zh", PyVal.str "a")], PyVal.dict [("zh", PyVal.str "b")],
       PyVal.dict [("zh", PyVal.str "c")]]
      rfl rfl).1 (by decide)

/-- C9: copying an input file's records into well-formed output skeletons
(source text copied verbatim, a target text added, and — for the terms
modes — the input's terms mapping copied unchanged) yields a record list
of equal length on which the per-line consistency loop succeeds. -/
theorem c9_roundtrip (ofname src tgt : String) (tgtText : PyVal → String)
    (withTerms : Bool) (ins : List PyVal)
    (hsrc : src ≠ "terms") (htgt : tgt ≠ "terms")
    (hwf : ∀ dp ∈ ins, isDict dp = true ∧ hasKey dp src = true ∧ noDupKeys dp = true)
    (hnt : withTerms = false → ∀ dp ∈ ins, hasKey dp "terms" = false) :
    (ins.map (mkOutput src tgt tgtText withTerms)).length = ins.length ∧
    consistency_loop ofname src 0 ins (ins.map (mkOutput src tgt tgtText withTerms)) =
      Except.ok () := by
  refine ⟨List.length_map _ _, ?_⟩
  have hout : ∀ dp ∈ ins.map (mkOutput src tgt tgtText withTerms),
      isDict dp = true ∧ hasKey dp src = true := by
    intro dp hdp
    obtain ⟨x, hx, rfl⟩ := List.mem_map.1 hdp
    refine ⟨rfl, ?_⟩
    rw [mkOutput, hasKey]
    simp only [List.cons_append, List.nil_append, List.lookup_cons_self, Option.isSome_some]
  rw [consistency_loop_eq ofname src 0 ins _ (List.length_map _ _).symm
    (fun dp hdp => ⟨(hwf dp hdp).1, (hwf dp hdp).2.1⟩) hout]
  have hzip : ∀ (l : List PyVal), l.zip (l.map (mkOutput src tgt tgtText withTerms)) =
      l.map (fun x => (x, mkOutput src tgt tgtText withTerms x)) := by
    intro l
    induction l with
    | nil => rfl
    | cons a as ih => rw [List.map_cons, List.zip_cons_cons, ih, List.map_cons]
  rw [(firstMismatch_eq_none_iff src _).2 ?_]
  intro p hp
  rw [hzip ins] at hp
  obtain ⟨x, hx, rfl⟩ := List.mem_map.1 hp
  obtain ⟨hd, hk, hnd⟩ := hwf x hx
  rw [recMatch]
  have hts : ("terms" == src) = false := beq_eq_false_iff_ne.2 (fun h => hsrc h.symm)
  have htt : ("terms" == tgt) = false := beq_eq_false_iff_ne.2 (fun h => htgt h.symm)
  have h1 : getVal (mkOutput src tgt tgtText withTerms x) src = getVal x src := by
    rw [mkOutput, getVal]
    simp only [List.cons_append, List.nil_append, List.lookup_cons_self, Option.getD_some]
  have h2 : termsVal (mkOutput src tgt tgtText withTerms x) = termsVal x := by
    rw [mkOutput, termsVal]
    simp only [List.cons_append, List.nil_append]
    rw [List.lookup_cons]
    rw [hts]
    rw [List.lookup_cons]
    rw [htt]
    cases withTerms with
    | true =>
      rw [if_pos rfl]
      rw [List.lookup_cons_self]
      rfl
    | false =>
      rw [if_neg (by simp)]
      rw [List.lookup_nil]
      have hkf := hnt rfl x hx
      cases x with
      | dict d =>
        rw [hasKey] at hkf
        rw [termsVal]
        cases hl : d.lookup "terms" with
        | some v => rw [hl] at hkf; cases hkf
        | none => rfl
      | str s => rfl
      | int n => rfl
      | bool b => rfl
      | none => rfl
      | list l => rfl
  rw [h1, h2]
  rw [pyEq_refl (getVal x src) (noDupKeys_getVal src hnd),
    pyEq_refl (termsVal x) (noDupKeys_termsVal hnd)]
  rfl

theorem c9_roundtrip_witness :
    consistency_loop "out/sys.enes.random.jsonl" "en" 0
        [PyVal.dict [("en", PyVal.str "hello"), ("terms", PyVal.dict [("cat", PyVal.str "gato")])]]
        ([PyVal.dict [("en", PyVal.str "hello"),
            ("terms", PyVal.dict [("cat", PyVal.str "gato")])]].map
          (mkOutput "en" "es" (fun _ => "hola") true)) = Except.ok () :=
  (c9_roundtrip "out/sys.enes.random.jsonl" "en" "es" (fun _ => "hola") true
      [PyVal.dict [("en", PyVal.str "hello"), ("terms", PyVal.dict [("cat", PyVal.str "gato")])]]
      (by decide) (by decide) (by decide)
      (fun h _ _ => by cases h)).2

/-- C6: for every record the schema stage computes the expected key set —
source and target codes, plus `terms` for modes `random`/`proper` — and
compares it as a set with the record's keys: any extra or missing key
makes the check fail with the error reporting the expected and the
observed key lists, and when the key sets agree exactly no key-set error
can arise from the rest of the record check.  `sameSet` is exactly
set-equality of the two key lists. -/
theorem c6_key_set_exact (ofname : String) (track : Nat) (src tgt mode : String)
    (idx : Nat) (d : List (String × PyVal)) :
    (sameSet (expectedKeyList src tgt mode) (d.map Prod.fst) = false →
      datapoint_record_check ofname track src tgt mode idx (PyVal.dict d) =
        Except.error (VError.wrongKeySet ofname idx (expectedKeyList src tgt mode)
          (d.map Prod.fst))) ∧
    (sameSet (expectedKeyList src tgt mode) (d.map Prod.fst) = true →
      ∀ f i a b, datapoint_record_check ofname track src tgt mode idx (PyVal.dict d) ≠
        Except.error (VError.wrongKeySet f i a b)) ∧
    (sameSet (expectedKeyList src tgt mode) (d.map Prod.fst) = true ↔
      ∀ x, (x ∈ expectedKeyList src tgt mode ↔ x ∈ d.map Prod.fst)) := by
  refine ⟨?_, ?_, sameSet_iff _ _⟩
  · intro hne
    rw [datapoint_record_check, pyKeys]
    dsimp only
    rw [hne]
    rfl
  · intro heq f i a b
    rw [datapoint_record_check, pyKeys]
    dsimp only
    rw [heq]
    exact datapoint_value_check_no_wrongKeySet ofname track src tgt mode idx
      (PyVal.dict d) f i a b

theorem c6_key_set_exact_witness :
    datapoint_record_check "output/bad/bad.enes.proper.jsonl" 1 "en" "es" "proper" 0
        (PyVal.dict [("en", PyVal.str "Hi"), ("terms", PyVal.dict [])]) =
      Except.error (VError.wrongKeySet "output/bad/bad.enes.proper.jsonl" 0
        ["en", "es", "terms"] ["en", "terms"]) :=
  (c6_key_set_exact "output/bad/bad.enes.proper.jsonl" 1 "en" "es" "proper" 0
      [("en", PyVal.str "Hi"), ("terms", PyVal.dict [])]).1 (by decide)

theorem check_dict_format_fst_iff (terms : List (String × PyVal)) (track : Nat) :
    (check_dict_format terms track).1 = true ↔
      ∀ kv ∈ terms, (if track = 1 then isStr kv.2 else isList kv.2) = true := by
  induction terms with
  | nil => simp [check_dict_format]
  | cons hd rest ih =>
    obtain ⟨k, v⟩ := hd
    rw [check_dict_format]
    by_cases hv : (if track = 1 then isStr v else isList v) = true
    · rw [if_pos hv, ih]
      constructor
      · intro h kv hkv
        rcases List.mem_cons.1 hkv with rfl | h2
        · exact hv
        · exact h kv h2
      · intro h kv hkv
        exact h kv (List.mem_cons_of_mem _ hkv)
    · rw [if_neg hv]
      dsimp only
      constructor
      · intro h; cases h
      · intro h
        exact absurd (h (k, v) (List.mem_cons_self _ _)) hv

theorem check_dict_format_false_first {terms : List (String × PyVal)} {track : Nat}
    {obs : Option String} (h : check_dict_format terms track = (false, obs)) :
    ∃ pre kv post, terms = pre ++ kv :: post ∧ obs = some (pyTypeName kv.2) ∧
      (if track = 1 then isStr kv.2 else isList kv.2) = false ∧
      ∀ kv2 ∈ pre, (if track = 1 then isStr kv2.2 else isList kv2.2) = true := by
  induction terms with
  | nil => rw [check_dict_format] at h; simp at h
  | cons hd rest ih =>
    obtain ⟨k, v⟩ := hd
    rw [check_dict_format] at h
    by_cases hv : (if track = 1 then isStr v else isList v) = true
    · rw [if_pos hv] at h
      obtain ⟨pre, kv, post, heq, hobs, hbad, hgood⟩ := ih h
      refine ⟨(k, v) :: pre, kv, post, by rw [heq]; rfl, hobs, hbad, ?_⟩
      intro kv2 hkv2
      rcases List.mem_cons.1 hkv2 with rfl | h2
      · exact hv
      · exact hgood kv2 h2
    · rw [if_neg hv] at h
      have hobs : obs = some (pyTypeName v) := by cases h; rfl
      have hvf : (if track = 1 then isStr v else isList v) = false := by
        revert hv
        cases (if track = 1 then isStr v else isList v) <;> simp
      exact ⟨[], (k, v), rest, rfl, hobs, hvf, by simp⟩

/-- C2 counterexample: under track 2 (document level), a `terms` value
`["cat" ↦ [1, true]]` is a sequence whose elements are not strings, yet
`check_dict_format` accepts it and the whole record passes the schema
stage, contradicting the claim that every element of the sequence must be
a string and a mismatch must fail. -/
theorem c2_counterexample :
    check_dict_format [("cat", PyVal.list [PyVal.int 1, PyVal.bool true])] 2 =
      (true, Option.none) ∧
    datapoint_record_check "sys.2016.zhen.random.jsonl" 2 "zh" "en" "random" 0
        (PyVal.dict [("zh", PyVal.str "x"), ("en", PyVal.str "y"),
          ("terms", PyVal.dict [("cat", PyVal.list [PyVal.int 1, PyVal.bool true])])]) =
      Except.ok () := by
  constructor
  · rfl
  · decide

/-- C2 amended: when mode is `random`/`proper` the `terms` value must be
a dict, otherwise the record check fails reporting the value's actual
type; and every value of that mapping must have the track-specific
container type — exact type `str` for track 1, exact type `list` for
track 2, with the elements of the list left unchecked — a mismatch
making the record check fail with the first offending value's actual
type reported (the values before the first offender all pass the type
test). -/
theorem c2_amended (terms : List (String × PyVal)) :
    ((check_dict_format terms 1).1 = true ↔ ∀ kv ∈ terms, isStr kv.2 = true) ∧
    ((check_dict_format terms 2).1 = true ↔ ∀ kv ∈ terms, isList kv.2 = true) ∧
    (∀ track obs, check_dict_format terms track = (false, obs) →
      ∃ pre kv post, terms = pre ++ kv :: post ∧ obs = some (pyTypeName kv.2) ∧
        (if track = 1 then isStr kv.2 else isList kv.2) = false ∧
        ∀ kv2 ∈ pre, (if track = 1 then isStr kv2.2 else isList kv2.2) = true) ∧
    (∀ (ofname src tgt mode : String) (track idx : Nat) (v : PyVal) (a b : String),
      src ≠ "terms" → tgt ≠ "terms" →
      (["random", "proper"] : List String).contains mode = true → isDict v = false →
      datapoint_value_check ofname track src tgt mode idx
          (PyVal.dict [(src, PyVal.str a), (tgt, PyVal.str b), ("terms", v)]) =
        Except.error (VError.wrongTermsDtype ofname idx (pyTypeName v))) ∧
    (∀ (ofname src tgt mode : String) (track idx : Nat) (td : List (String × PyVal))
        (a b : String) (obs : Option String),
      src ≠ "terms" → tgt ≠ "terms" →
      (["random", "proper"] : List String).contains mode = true →
      check_dict_format td track = (false, obs) →
      datapoint_value_check ofname track src tgt mode idx
          (PyVal.dict [(src, PyVal.str a), (tgt, PyVal.str b), ("terms", PyVal.dict td)]) =
        Except.error (VError.wrongTermsValueDtype ofname idx (optStr obs))) := by
  refine ⟨?_, ?_, fun track obs h => check_dict_format_false_first h, ?_, ?_⟩
  · rw [check_dict_format_fst_iff terms 1]
    simp
  · rw [check_dict_format_fst_iff terms 2]
    simp
  · intro ofname src tgt mode track idx v a b hsrc htgt hmode hv
    rw [datapoint_value_check]
    have hlook1 : pyGetItem
        (PyVal.dict [(src, PyVal.str a), (tgt, PyVal.str b), ("terms", v)]) src =
        Except.ok (PyVal.str a) := by
      rw [pyGetItem, List.lookup_cons_self]
    rw [hlook1]
    dsimp only
    rw [if_pos (show isStr (PyVal.str a) = true from rfl)]
    have hlook2 : ∃ c : String, pyGetItem
        (PyVal.dict [(src, PyVal.str a), (tgt, PyVal.str b), ("terms", v)]) tgt =
        Except.ok (PyVal.str c) := by
      rw [pyGetItem, List.lookup_cons]
      cases htc : (tgt == src) with
      | true => exact ⟨a, rfl⟩
      | false =>
        rw [List.lookup_cons_self]
        exact ⟨b, rfl⟩
    obtain ⟨c, hlook2⟩ := hlook2
    rw [hlook2]
    dsimp only
    rw [if_pos (show isStr (PyVal.str c) = true from rfl), if_pos hmode]
    have hlook3 : pyGetItem
        (PyVal.dict [(src, PyVal.str a), (tgt, PyVal.str b), ("terms", v)]) "terms" =
        Except.ok v := by
      rw [pyGetItem, List.lookup_cons,
        show ("terms" == src) = false from beq_eq_false_iff_ne.2 (fun h => hsrc h.symm),
        List.lookup_cons,
        show ("terms" == tgt) = false from beq_eq_false_iff_ne.2 (fun h => htgt h.symm),
        List.lookup_cons_self]
    rw [hlook3]
    dsimp only
    cases v with
    | dict d => rw [isDict] at hv; cases hv
    | str s => rfl
    | int n => rfl
    | bool b2 => rfl
    | none => rfl
    | list l => rfl
  · intro ofname src tgt mode track idx td a b obs hsrc htgt hmode hcdf
    rw [datapoint_value_check]
    have hlook1 : pyGetItem
        (PyVal.dict [(src, PyVal.str a), (tgt, PyVal.str b), ("terms", PyVal.dict td)]) src =
        Except.ok (PyVal.str a) := by
      rw [pyGetItem, List.lookup_cons_self]
    rw [hlook1]
    dsimp only
    rw [if_pos (show isStr (PyVal.str a) = true from rfl)]
    have hlook2 : ∃ c : String, pyGetItem
        (PyVal.dict [(src, PyVal.str a), (tgt, PyVal.str b), ("terms", PyVal.dict td)]) tgt =
        Except.ok (PyVal.str c) := by
      rw [pyGetItem, List.lookup_cons]
      cases htc : (tgt == src) with
      | true => exact ⟨a, rfl⟩
      | false =>
        rw [List.lookup_cons_self]
        exact ⟨b, rfl⟩
    obtain ⟨c, hlook2⟩ := hlook2
    rw [hlook2]
    dsimp only
    rw [if_pos (show isStr (PyVal.str c) = true from rfl), if_pos hmode]
    have hlook3 : pyGetItem
        (PyVal.dict [(src, PyVal.str a), (tgt, PyVal.str b), ("terms", PyVal.dict td)])
        "terms" = Except.ok (PyVal.dict td) := by
      rw [pyGetItem, List.lookup_cons,
        show ("terms" == src) = false from beq_eq_false_iff_ne.2 (fun h => hsrc h.symm),
        List.lookup_cons,
        show ("terms" == tgt) = false from beq_eq_false_iff_ne.2 (fun h => htgt h.symm),
        List.lookup_cons_self]
    rw [hlook3]
    dsimp only
    rw [hcdf]

theorem c2_amended_witness :
    (check_dict_format [("cat", PyVal.list [PyVal.int 1])] 2).1 = true ∧
    datapoint_value_check "f.jsonl" 1 "en" "es" "proper" 3
        (PyVal.dict [("en", PyVal.str "a"), ("es", PyVal.str "b"),
          ("terms", PyVal.list [])]) =
      Except.error (VError.wrongTermsDtype "f.jsonl" 3 "list") ∧
    datapoint_value_check "g.jsonl" 2 "zh" "en" "random" 0
        (PyVal.dict [("zh", PyVal.str "x"), ("en", PyVal.str "y"),
          ("terms", PyVal.dict [("cat", PyVal.str "gato")])]) =
      Except.error (VError.wrongTermsValueDtype "g.jsonl" 0 "str") :=
  ⟨(c2_amended [("cat", PyVal.list [PyVal.int 1])]).2.1.2 (by simp [isList]),
   (c2_amended []).2.2.2.1 "f.jsonl" "en" "es" "proper" 1 3 (PyVal.list []) "a" "b"
     (by decide) (by decide) (by decide) (by decide),
   (c2_amended []).2.2.2.2 "g.jsonl" "zh" "en" "random" 2 0 [("cat", PyVal.str "gato")]
     "x" "y" (some "str") (by decide) (by decide) (by decide) (by decide)⟩

/-- C1 counterexample: a complete track-2 submission for year 2015 only —
no submitted filename carries the year token `2016` — still fails the
completeness check, and the missing file it names is for year 2016.  So
for track 2 the year combinations are not restricted to those present in
the submission. -/
theorem c1_counterexample :
    ((["sys.2015.enzh.noterm.jsonl", "sys.2015.enzh.random.jsonl",
        "sys.2015.enzh.proper.jsonl"] : List String).all
      (fun f => negIdx (splitDots f) 4 != "2016")) = true ∧
    file_year_pair_check ["sys.2015.enzh.noterm.jsonl", "sys.2015.enzh.random.jsonl",
        "sys.2015.enzh.proper.jsonl"] "sys" 2 =
      Except.error (VError.missingFile "sys.2016.zhen.noterm.jsonl") := by
  constructor
  · decide
  · decide

/-- C1 amended: for track 1, expected filenames are built exactly for the
allowed language pairs present in the submitted filename set (three mode
files per such pair), and a missing-file error names the first expected
filename absent from the submitted set — every expected filename before
it is present; for track 2,
expected filenames are built for every year of the fixed ten-year
schedule regardless of which years were submitted, and the check passes
iff all thirty scheduled files are present. -/
theorem c1_amended (fnames_list : List String) (sysname f : String) :
    (file_year_pair_check fnames_list sysname 1 = Except.error (VError.missingFile f) →
      (∃ lp, lp ∈ trackOnePairs ∧ (pairCandidates fnames_list).contains lp = true ∧
        f ∈ modeNames (sysname ++ "." ++ lp) ∧ fnames_list.contains f = false) ∧
      (∃ pre post, expected_fnames_t1 fnames_list sysname = pre ++ f :: post ∧
        ∀ g ∈ pre, fnames_list.contains g = true)) ∧
    (file_year_pair_check fnames_list sysname 1 = Except.ok () →
      ∀ lp, lp ∈ trackOnePairs → (pairCandidates fnames_list).contains lp = true →
        ∀ g ∈ modeNames (sysname ++ "." ++ lp), fnames_list.contains g = true) ∧
    (file_year_pair_check fnames_list sysname 2 = Except.ok () ↔
      ∀ yp ∈ year2pair, ∀ g ∈ modeNames (sysname ++ "." ++ toString yp.1 ++ "." ++ yp.2),
        fnames_list.contains g = true) := by
  refine ⟨?_, ?_, ?_⟩
  · intro h
    rw [file_year_pair_check, if_pos rfl] at h
    cases hf : (expected_fnames_t1 fnames_list sysname).find?
        (fun g => !(fnames_list.contains g)) with
    | none => rw [hf] at h; cases h
    | some g =>
      rw [hf] at h
      have hg : g = f := by cases h; rfl
      subst hg
      have hmem := List.mem_of_find?_eq_some hf
      have hpred := List.find?_some hf
      obtain ⟨-, pre, post, hdec, hpre⟩ := List.find?_eq_some.1 hf
      rw [expected_fnames_t1] at hmem
      obtain ⟨lp, hlp, hfm⟩ := List.mem_flatMap.1 hmem
      obtain ⟨hlp1, hlp2⟩ := List.mem_filter.1 hlp
      refine ⟨⟨lp, hlp1, hlp2, hfm, by simpa using hpred⟩, pre, post, hdec, ?_⟩
      intro g2 hg2
      have := hpre g2 hg2
      simpa using this
  · intro h lp hlp1 hlp2 g hg
    rw [file_year_pair_check, if_pos rfl] at h
    cases hf : (expected_fnames_t1 fnames_list sysname).find?
        (fun g => !(fnames_list.contains g)) with
    | some g2 => rw [hf] at h; cases h
    | none =>
      have hmem : g ∈ expected_fnames_t1 fnames_list sysname := by
        rw [expected_fnames_t1]
        exact List.mem_flatMap.2 ⟨lp, List.mem_filter.2 ⟨hlp1, hlp2⟩, hg⟩
      have := List.find?_eq_none.1 hf g hmem
      simpa using this
  · constructor
    · intro h yp hyp g hg
      rw [file_year_pair_check] at h
      rw [if_neg (by decide), if_pos rfl] at h
      cases hf : (expected_fnames_t2 sysname).find?
          (fun g => !(fnames_list.contains g)) with
      | some g2 => rw [hf] at h; cases h
      | none =>
        have hmem : g ∈ expected_fnames_t2 sysname := by
          rw [expected_fnames_t2]
          exact List.mem_flatMap.2 ⟨yp, hyp, hg⟩
        have := List.find?_eq_none.1 hf g hmem
        simpa using this
    · intro h
      rw [file_year_pair_check]
      rw [if_neg (by decide), if_pos rfl]
      have hf : (expected_fnames_t2 sysname).find?
          (fun g => !(fnames_list.contains g)) = Option.none := by
        rw [List.find?_eq_none]
        intro g hg
        rw [expected_fnames_t2] at hg
        obtain ⟨yp, hyp, hgm⟩ := List.mem_flatMap.1 hg
        simp only [Bool.not_eq_true', Bool.not_eq_false]
        exact h yp hyp g hgm
      rw [hf]

theorem c1_amended_witness :
    (∃ lp, lp ∈ trackOnePairs ∧
      (pairCandidates ["sys.enes.noterm.jsonl"]).contains lp = true ∧
      "sys.enes.random.jsonl" ∈ modeNames ("sys" ++ "." ++ lp) ∧
      (["sys.enes.noterm.jsonl"] : List String).contains "sys.enes.random.jsonl" = false) ∧
    (∃ pre post, expected_fnames_t1 ["sys.enes.noterm.jsonl"] "sys" =
        pre ++ "sys.enes.random.jsonl" :: post ∧
      ∀ g ∈ pre, (["sys.enes.noterm.jsonl"] : List String).contains g = true) :=
  (c1_amended ["sys.enes.noterm.jsonl"] "sys" "sys.enes.random.jsonl").1 (by decide)

/-- C7 counterexample: two submitted `.jsonl` files with different
system-name prefixes where one filename is malformed — the run fails, but
with the naming error (raised by the per-filename loop that runs first),
not with the system-name-conflict error, so two different prefixes do not
always yield that error. -/
theorem c7_counterexample :
    (firstTok "sys.enes.noterm.jsonl" == firstTok "other.bad.jsonl") = false ∧
    file_check [] ["sys.enes.noterm.jsonl", "other.bad.jsonl"] 1 =
      Except.error (VError.namingError "other.bad.jsonl") ∧
    (match file_check [] ["sys.enes.noterm.jsonl", "other.bad.jsonl"] 1 with
      | Except.error (VError.sysNameConflict _) => true
      | _ => false) = false := by
  refine ⟨by decide, by decide, by decide⟩

/-- C7 amended: the filename stage collects the distinct first
dot-separated tokens over the submitted `.jsonl` filenames and fails with
the system-name-conflict error whenever more than one distinct value is
present; in particular, provided every submitted `.jsonl` filename passes
the naming check, any two submitted files with different system-name
prefixes make the run fail with that error. -/
theorem c7_amended (fs : FSys) (output_list : List String) (track : Nat)
    (f1 f2 : String)
    (hnam : ∀ f ∈ jsonlNames output_list, file_naming_check f track = Except.ok ())
    (h1 : f1 ∈ jsonlNames output_list) (h2 : f2 ∈ jsonlNames output_list)
    (hne : firstTok f1 ≠ firstTok f2) :
    ∃ names, file_check fs output_list track = Except.error (VError.sysNameConflict names) ∧
      firstTok f1 ∈ names ∧ firstTok f2 ∈ names ∧ 2 ≤ names.length := by
  rw [jsonlNames] at hnam h1 h2
  have hm1 : firstTok f1 ∈
      (((output_list.filter (fun f => strEndsWith f ".jsonl")).map basename).map
        firstTok).dedup :=
    List.mem_dedup.2 (List.mem_map.2 ⟨f1, h1, rfl⟩)
  have hm2 : firstTok f2 ∈
      (((output_list.filter (fun f => strEndsWith f ".jsonl")).map basename).map
        firstTok).dedup :=
    List.mem_dedup.2 (List.mem_map.2 ⟨f2, h2, rfl⟩)
  have hlen1 : (((output_list.filter (fun f => strEndsWith f ".jsonl")).map basename).map
      firstTok).dedup.length ≠ 1 := by
    intro hlen
    obtain ⟨x, hx⟩ := List.length_eq_one.1 hlen
    rw [hx] at hm1 hm2
    simp only [List.mem_singleton] at hm1 hm2
    exact hne (hm1.trans hm2.symm)
  have hlen0 : (((output_list.filter (fun f => strEndsWith f ".jsonl")).map basename).map
      firstTok).dedup.length ≠ 0 := by
    intro hlen
    rw [List.length_eq_zero] at hlen
    rw [hlen] at hm1
    cases hm1
  refine ⟨_, ?_, hm1, hm2, by omega⟩
  simp only [file_check]
  rw [naming_check_all_ok hnam]
  dsimp only
  rw [if_neg hlen1]

theorem c7_amended_witness :
    ∃ names, file_check [] ["a.enes.noterm.jsonl", "b.enes.noterm.jsonl"] 1 =
      Except.error (VError.sysNameConflict names) ∧
      firstTok "a.enes.noterm.jsonl" ∈ names ∧ firstTok "b.enes.noterm.jsonl" ∈ names ∧
      2 ≤ names.length :=
  c7_amended [] ["a.enes.noterm.jsonl", "b.enes.noterm.jsonl"] 1
    "a.enes.noterm.jsonl" "b.enes.noterm.jsonl" (by decide) (by decide) (by decide)
    (by decide)

/-- C10 counterexample: a well-formed track-1 filename whose
language-pair token `xxyy` is outside the allowed set passes the whole
filename stage — the completeness check silently ignores the pair instead
of rejecting it, so the submission does pass filename-stage validation. -/
theorem c10_counterexample :
    (trackOnePairs.contains "xxyy") = false ∧
    ((pairCandidates ["sys.xxyy.noterm.jsonl"]).contains "xxyy") = true ∧
    file_check [("sys.xxyy.noterm.jsonl", [])] ["sys.xxyy.noterm.jsonl"] 1 =
      Except.ok () := by
  refine ⟨by decide, by decide, by decide⟩

/-- C10 amended: the Naming Analyzer does not check language-pair token
content, and the Completeness Checker restricts the submitted pairs to
the fixed allowed set only to decide which files are required — a
track-1 submission of well-formed, consistently named, valid-JSONL files
whose language-pair tokens all lie outside the allowed set generates no
completeness requirements and passes the whole filename stage. -/
theorem c10_amended (fs : FSys) (output_list : List String)
    (hn : ∀ f ∈ jsonlNames output_list, file_naming_check f 1 = Except.ok ())
    (hs : ((jsonlNames output_list).map firstTok).dedup.length = 1)
    (hp : ∀ p ∈ pairCandidates (jsonlNames output_list), p ∉ trackOnePairs)
    (hf : ∀ fp ∈ output_list.filter (fun f => strEndsWith f ".jsonl"),
        isTrueVal (file_basic_check fs (some fp) false) = true) :
    file_check fs output_list 1 = Except.ok () := by
  rw [jsonlNames] at hn hs hp
  simp only [file_check]
  rw [naming_check_all_ok hn]
  dsimp only
  rw [if_pos hs]
  have hfilter : trackOnePairs.filter
      (fun lp => (pairCandidates
        ((output_list.filter (fun f => strEndsWith f ".jsonl")).map basename)).contains lp) =
      [] := by
    rw [List.filter_eq_nil_iff]
    intro lp hlp hcont
    have hmem : lp ∈ pairCandidates
        ((output_list.filter (fun f => strEndsWith f ".jsonl")).map basename) := by
      simpa [List.contains, List.elem_eq_mem] using hcont
    exact hp lp hmem hlp
  rw [file_year_pair_check, if_pos rfl, expected_fnames_t1, hfilter]
  exact format_check_all_ok hf

theorem c10_amended_witness :
    file_check [("sys.xxyy.random.jsonl", [])] ["sys.xxyy.random.jsonl"] 1 =
      Except.ok () :=
  c10_amended [("sys.xxyy.random.jsonl", [])] ["sys.xxyy.random.jsonl"]
    (by decide) (by decide) (by decide) (by decide)

end WMTValidation
